import Mathlib

/-!
Verification of the WorkFlow repository: a shallow embedding of the
markdown code-extraction engine (src/utils.py) and of the autonomous
coding workflow state machine (src/graph/state.py, src/graph/workflow.py),
together with proofs settling the specification claims.

Python strings are modelled as `List Char` (for the regex-level scanning in
the extraction engine) or `String` (for workflow-level fields).  The regex
scans of the source are hand-compiled to equivalent recursive scanners:
the patterns involved are simple enough that greedy/lazy backtracking
collapses to deterministic maximal-munch scanning, as argued in the
comments at each definition.  Character classes are modelled over their
ASCII behaviour.  Wall-clock timestamps (`start_time`, `last_update`,
message timestamps) are irrelevant to every claim and are omitted from the
state record.
-/

/-- The backtick character, written via its code point. -/
def tick : Char := Char.ofNat 96

/-- Python `str.strip()` whitespace test (ASCII subset). -/
def pyIsSpace (c : Char) : Bool :=
  c = ' ' || c = '\t' || c = '\n' || c = '\r' || c = Char.ofNat 11 || c = Char.ofNat 12

/-- Python `str.strip()`: drop leading and trailing whitespace. -/
def pyStrip (s : List Char) : List Char :=
  ((s.dropWhile pyIsSpace).reverse.dropWhile pyIsSpace).reverse

/-- `pyStrip` on `String`. -/
def pyStripS (s : String) : String := ⟨pyStrip s.data⟩

/-- Regex class `\w` (ASCII behaviour): letters, digits, underscore. -/
def isWordChar (c : Char) : Bool := c.isAlphanum || c = '_'

/-- Python `str.upper()` (ASCII behaviour). -/
def pyUpper (l : List Char) : List Char := l.map Char.toUpper

/-- Python substring test `needle in hay`. -/
def strContains (needle : List Char) : List Char → Bool
  | [] => needle.isEmpty
  | c :: rest => needle.isPrefixOf (c :: rest) || strContains needle rest

/-- True when the list starts with three backticks. -/
def isTripleTick : List Char → Bool
  | a :: b :: c :: _ => a = tick && b = tick && c = tick
  | _ => false

/-- Helper for the lazy `(.*?)` followed by the closing fence in the block
pattern: split the text at the first occurrence of three backticks,
returning the text before it and the text after it. -/
def splitAtFence : List Char → Option (List Char × List Char)
  | [] => none
  | c :: rest =>
    if isTripleTick (c :: rest) then some ([], rest.drop 2)
    else
      match splitAtFence rest with
      | some (pre, post) => some (c :: pre, post)
      | none => none

/-- The language group of a fence match: `None` when the optional `(\w+)?`
group matched nothing. -/
def langOf (run : List Char) : Option (List Char) :=
  if run = [] then none else some run

/-- One attempt of Python `re.finditer` for the fenced-block pattern (three
backticks, optional `(\w+)?` language group, a newline, a lazy `(.*?)`
body group, three closing backticks, with DOTALL)
at the head of the text.  The optional greedy `(\w+)?` must be followed by
a literal newline; since no word character is a newline, backtracking
collapses to: take the maximal word-character run after the opening fence
and require a newline right after it.  The lazy `(.*?)` before the closing
fence is the text up to the first later occurrence of three backticks.
Returns (language group, code group, rest of the text after the match). -/
def matchFence (s : List Char) : Option (Option (List Char) × List Char × List Char) :=
  if isTripleTick s then
    match (s.drop 3).dropWhile isWordChar with
    | c :: u =>
      if c = '\n' then
        (splitAtFence u).map fun pr =>
          (langOf ((s.drop 3).takeWhile isWordChar), pr.1, pr.2)
      else none
    | [] => none
  else none

/-- The scan loop of `re.finditer` for the fenced-block pattern: try a match
at every position, left to right, continuing after each match
(non-overlapping).  `fuel` bounds the recursion; it is instantiated with
the length of the text, which always suffices since every step consumes at
least one character. -/
def findBlocksAux : Nat → List Char → List (Option (List Char) × List Char)
  | 0, _ => []
  | _ + 1, [] => []
  | fuel + 1, c :: rest =>
    match matchFence (c :: rest) with
    | some (lang, body, after) => (lang, body) :: findBlocksAux fuel after
    | none => findBlocksAux fuel rest

/-- All fenced-region matches of the text, in scan order. -/
def findBlocks (s : List Char) : List (Option (List Char) × List Char) :=
  findBlocksAux s.length s

/-- Helper for the inline pattern: split the text at the first backtick. -/
def splitAtTick : List Char → Option (List Char × List Char)
  | [] => none
  | c :: rest =>
    if c = tick then some ([], rest)
    else
      match splitAtTick rest with
      | some (pre, post) => some (c :: pre, post)
      | none => none

/-- One attempt of Python `re.finditer` for the inline-code pattern (a
backtick, a non-empty `[^`]+` group, a backtick) at the head of
the text: an opening backtick, a non-empty run of non-backtick characters,
and a closing backtick.  The greedy `[^`]+` collapses to the maximal
non-backtick run, which must be terminated by a backtick and be non-empty. -/
def matchInline (s : List Char) : Option (List Char × List Char) :=
  match s with
  | [] => none
  | c :: t =>
    if c = tick then
      (splitAtTick t).bind fun pr => if pr.1 = [] then none else some pr
    else none

/-- The scan loop of `re.finditer` for the inline pattern. -/
def findInlineAux : Nat → List Char → List (List Char)
  | 0, _ => []
  | _ + 1, [] => []
  | fuel + 1, c :: rest =>
    match matchInline (c :: rest) with
    | some (body, after) => body :: findInlineAux fuel after
    | none => findInlineAux fuel rest

/-- All inline-code matches of the text, in scan order. -/
def findInline (s : List Char) : List (List Char) :=
  findInlineAux s.length s

/-- One entry of the result of `extract_code_from_markdown`: the dict
with the keys language, code and type of the source (the dict key
named type is called `btype` here). -/
structure CodeBlock where
  language : List Char
  code : List Char
  btype : List Char
deriving DecidableEq, Repr

/-- `utils.extract_code_from_markdown`: fenced blocks first (language
defaulting to `text`, code stripped), then inline code (language `text`,
code not stripped). -/
def extract_code_from_markdown (s : List Char) : List CodeBlock :=
  ((findBlocks s).map fun p =>
    { language := p.1.getD "text".data, code := pyStrip p.2, btype := "block".data })
  ++ ((findInline s).map fun body =>
    { language := "text".data, code := body, btype := "inline".data })

/-- Regex class `[\w\._-]` of `find_filename_in_code` (ASCII behaviour). -/
def isFileChar (c : Char) : Bool := isWordChar c || c = '.' || c = '_' || c = '-'

/-- One attempt of Python `re.search(r"#\s*File:\s*([\w\._-]+)", text)` at the
head of the text.  Both `\s*` occurrences are greedy runs followed by a
character outside the class, so backtracking collapses to maximal-munch:
a hash, maximal whitespace, the literal `File:`, maximal whitespace, and a
non-empty maximal run of filename characters. -/
def matchFileDirective (s : List Char) : Option (List Char) :=
  match s with
  | [] => none
  | c :: t =>
    if c = '#' then
      match t.dropWhile pyIsSpace with
      | 'F' :: 'i' :: 'l' :: 'e' :: ':' :: t2 =>
        let run := (t2.dropWhile pyIsSpace).takeWhile isFileChar
        if run = [] then none else some run
      | _ => none
    else none

/-- `find_filename_in_code` of `_coder_node`: leftmost match of the
file-directive pattern, or nothing. -/
def find_filename_in_code : List Char → Option (List Char)
  | [] => none
  | c :: rest =>
    match matchFileDirective (c :: rest) with
    | some run => some run
    | none => find_filename_in_code rest

/-- One entry of the `messages` log (`state.add_message`); the wall-clock
timestamp field is omitted. -/
structure Message where
  agent : String
  text : String
  kind : String
deriving DecidableEq, Repr

/-- The shared workflow state (`state.AgentState`).  Python `None` becomes
`Option.none`; numeric metrics (Python floats holding the exact values
0.0, 100.0, 9.0, 5.0, 8.5) are modelled as rationals; the two wall-clock
fields `start_time` and `last_update` are omitted. -/
structure AgentState where
  requirements : String
  plan : Option String
  code : Option String
  tests : Option String
  review : Option String
  messages : List Message
  current_agent : Option String
  phase : String
  iteration : Int
  status : String
  errors : List String
  warnings : List String
  files_created : List String
  files_modified : List String
  test_coverage : Option ℚ
  code_quality_score : Option ℚ
  review_score : Option ℚ
deriving DecidableEq, Repr

/-- `state.create_initial_state`. -/
def create_initial_state (requirements : String) : AgentState where
  requirements := requirements
  plan := none
  code := none
  tests := none
  review := none
  messages := []
  current_agent := none
  phase := "planning"
  iteration := 1
  status := "in_progress"
  errors := []
  warnings := []
  files_created := []
  files_modified := []
  test_coverage := none
  code_quality_score := none
  review_score := none

/-- `state.add_message`: copy the state and append one message entry
(`update_state` only additionally touches the omitted timestamp). -/
def add_message (s : AgentState) (agent text kind : String) : AgentState :=
  { s with messages := s.messages ++ [⟨agent, text, kind⟩] }

/-- `state.add_error`: copy the state and append one error string. -/
def add_error (s : AgentState) (error : String) : AgentState :=
  { s with errors := s.errors ++ [error] }

/-- Python truthiness of an optional string (`None` and the empty string
are falsy). -/
def truthy : Option String → Bool
  | none => false
  | some s => !s.isEmpty

/-- Result of the `execute_pytest` collaborator as consumed by the tester
node: the success flag and the return code read via `dict.get`
(the latter is absent, hence `none`, on the timeout/exception paths of the
shell tool). -/
structure RunResult where
  success : Bool
  return_code : Option Int
  stdout : String
  stderr : String
deriving DecidableEq, Repr

/-- Result of the `install_requirements` collaborator as consumed by the
tester node. -/
structure InstallResult where
  success : Bool
  stderr : String
deriving DecidableEq, Repr

/-- The collaborator outcomes one node invocation can consume: the
generation call (`some text` on success, `none` on failure, with the
rendered error string used in fallback warnings), the successive
file-save results of the coder loop, the dependency-install result and
the test-run result. -/
structure StepOutcome where
  llm : Option String
  llmErr : String
  saves : List Bool
  install : InstallResult
  testRun : RunResult

/-- `_create_mock_plan`. -/
def mock_plan (requirements : String) : String := "Mock plan for: " ++ requirements

/-- `_create_mock_code` (the apostrophes of the source string are written
via their code point). -/
def mock_code : String :=
  "```python\n# Mock code\nprint(" ++ String.singleton (Char.ofNat 39) ++ "hello world"
    ++ String.singleton (Char.ofNat 39) ++ ")\n```"

/-- `_create_mock_tests` (a constant string; the source ignores its
argument). -/
def mock_tests : String :=
  "```python\n# Mock tests\nimport pytest\ndef test_mock():\n    assert True\n```"

/-- `_create_mock_review`. -/
def mock_review : String := "Mock review: APPROVED"

/-- `_extract_review_score`: 9.0 when the upper-cased review contains the
approval marker, else 5.0. -/
def extract_review_score (review : String) : ℚ :=
  if strContains "APPROVED".data (pyUpper review.data) then 9 else 5

/-- `_planner_node` (the prompt text only feeds the generation collaborator
and is not modelled; the node is always in the `llm_tool` branch since the
constructor always installs the tool). -/
def planner_node (o : StepOutcome) (s : AgentState) : AgentState :=
  let s1 := { s with current_agent := some "planner", phase := "planning" }
  let s2 := add_message s1 "planner" "Starting planning phase..." "info"
  match o.llm with
  | some text =>
    let s3 := add_message s2 "planner" "Planning completed using LLM" "success"
    let s4 := { s3 with plan := some text }
    add_message s4 "planner" "Planning phase completed successfully" "success"
  | none =>
    let s3 := add_message s2 "planner" ("LLM failed, using fallback plan: " ++ o.llmErr) "warning"
    let s4 := { s3 with plan := some (mock_plan s3.requirements) }
    add_message s4 "planner" "Planning phase completed successfully" "success"

/-- The file-saving loop of `_coder_node`: for each extracted block, derive
a filename (directive match or `file_<i+1>.txt`), call the save
collaborator, and on success append an info message and record the
filename.  Returns the updated state and the filenames created this turn. -/
def coder_files_loop (o : StepOutcome) :
    List CodeBlock → Nat → AgentState → List String → AgentState × List String
  | [], _, s, acc => (s, acc)
  | b :: bs, i, s, acc =>
    let filename :=
      ((find_filename_in_code b.code).map fun l => (⟨l⟩ : String)).getD
        ("file_" ++ toString (i + 1) ++ ".txt")
    if o.saves.getD i false then
      coder_files_loop o bs (i + 1)
        (add_message s "coder" ("Created/Updated file: " ++ filename) "info")
        (acc ++ [filename])
    else
      coder_files_loop o bs (i + 1) s acc

/-- `_coder_node`.  The final `files_created` update models Python
`list(set(old + new))` as list append followed by `dedup`; the source only
ever uses membership in this list, and the iteration order of a Python
`set` is unspecified, so only the membership content is relied upon. -/
def coder_node (o : StepOutcome) (s : AgentState) : AgentState :=
  let s1 := { s with current_agent := some "coder", phase := "coding" }
  let s2 := add_message s1 "coder" "Starting coding phase..." "info"
  let codeAnd :=
    match o.llm with
    | some text => (text, add_message s2 "coder" "Code generated using LLM" "success")
    | none => (mock_code, add_message s2 "coder" ("LLM failed, using fallback code: " ++ o.llmErr) "warning")
  let code := codeAnd.1
  let blocks := extract_code_from_markdown code.data
  let loopRes := coder_files_loop o blocks 0 codeAnd.2 []
  let s4 := { loopRes.1 with
    code := some code,
    files_created := (loopRes.1.files_created ++ loopRes.2).dedup }
  add_message s4 "coder"
    ("Coding phase completed. " ++ toString loopRes.2.length ++ " files touched.") "success"

/-- The part of `_tester_node` after the dependency-install branch:
generate the test artifact, save it (the save result is ignored by the
source), run the test suite and map the result onto `test_coverage`. -/
def tester_after_install (o : StepOutcome) (s : AgentState) : AgentState :=
  let testAnd :=
    if truthy s.code then
      match o.llm with
      | some text => (text, add_message s "tester" "Tests generated using LLM" "success")
      | none => (mock_tests, add_message s "tester" "Tests generated with fallback" "warning")
    else (mock_tests, add_message s "tester" "Tests generated with mock agent" "info")
  let test_code := testAnd.1
  let s3 := testAnd.2
  if o.testRun.success && o.testRun.return_code == some 0 then
    let s4 := add_message s3 "tester" "All tests passed successfully!" "success"
    { s4 with tests := some test_code, test_coverage := some 100 }
  else
    let error_output := o.testRun.stderr ++ "\n" ++ o.testRun.stdout
    let s4 := add_message s3 "tester" ("Tests failed: " ++ pyStripS error_output) "warning"
    { s4 with tests := some test_code, test_coverage := some 0 }

/-- `_tester_node`. -/
def tester_node (o : StepOutcome) (s : AgentState) : AgentState :=
  let s1 := { s with current_agent := some "tester", phase := "testing" }
  let s2 := add_message s1 "tester" "Starting testing phase..." "info"
  if "requirements.txt" ∈ s2.files_created then
    let s3 := add_message s2 "tester" "requirements.txt found, installing dependencies..." "info"
    if o.install.success then
      tester_after_install o (add_message s3 "tester" "Dependencies installed successfully." "success")
    else
      let error_msg := "Dependency installation failed: " ++ o.install.stderr
      add_error (add_message s3 "tester" error_msg "error") error_msg
  else
    tester_after_install o s2

/-- `_critic_node`. -/
def critic_node (o : StepOutcome) (s : AgentState) : AgentState :=
  let s1 := { s with current_agent := some "critic", phase := "reviewing" }
  let s2 := add_message s1 "critic" "Starting code review phase..." "info"
  let reviewAnd :=
    if truthy s2.code then
      match o.llm with
      | some text =>
        (text, extract_review_score text,
          add_message s2 "critic" "Code review completed using LLM" "success")
      | none =>
        (mock_review, (17 / 2 : ℚ),
          add_message s2 "critic" "Code review completed with fallback" "warning")
    else
      (mock_review, (17 / 2 : ℚ),
        add_message s2 "critic" "Code review completed with mock agent" "info")
  let s3 := { reviewAnd.2.2 with review := some reviewAnd.1, review_score := some reviewAnd.2.1 }
  add_message s3 "critic" "Code review completed successfully" "success"

/-- `_route_after_planning`.  Routers return the decision string together
with the state as the caller observes it afterwards: the source mutates
the state dict in place, so in-place updates are modelled by returning the
updated record.  A `none` decision models an uncaught `TypeError` from
comparing `None` with a number. -/
def _route_after_planning (s : AgentState) : Option String × AgentState :=
  if truthy s.plan then (some "coding", s) else (some "complete", s)

/-- `_route_after_coding`. -/
def _route_after_coding (s : AgentState) : Option String × AgentState :=
  if truthy s.code then (some "testing", s) else (some "complete", s)

/-- `_route_after_testing`.  On coverage above the threshold the counter is
reset in place; otherwise it is incremented in place and checked against
the cap 5.  In the cap-exceeded branch the source calls `add_message` and
discards its result; since `add_message` returns a fresh copy, the
observable state is unchanged by that call and the model elides it.  With
`test_coverage = None` the comparison `None > 80.0` raises. -/
def _route_after_testing (s : AgentState) : Option String × AgentState :=
  match s.test_coverage with
  | none => (none, s)
  | some c =>
    if 80 < c then (some "reviewing", { s with iteration := 0 })
    else
      let iteration := s.iteration + 1
      if 5 < iteration then (some "complete", { s with iteration := iteration })
      else (some "coding", { s with iteration := iteration })

/-- `_route_after_review`: approval threshold 8.0, cap 7, otherwise as the
testing router (including the discarded `add_message` call). -/
def _route_after_review (s : AgentState) : Option String × AgentState :=
  match s.review_score with
  | none => (none, s)
  | some r =>
    if 8 < r then (some "complete", s)
    else
      let iteration := s.iteration + 1
      if 7 < iteration then (some "complete", { s with iteration := iteration })
      else (some "coding", { s with iteration := iteration })

/-- The four graph nodes. -/
inductive Node where
  | planner
  | coder
  | tester
  | critic
deriving DecidableEq, Repr

/-- Where the execution stands: about to run a node, finished (`END`), or
aborted by an uncaught router exception. -/
inductive ExecPoint where
  | run (n : Node)
  | done
  | crashed
deriving DecidableEq, Repr

/-- Run one node (`workflow.add_node` bindings). -/
def runNode : Node → StepOutcome → AgentState → AgentState
  | .planner => planner_node
  | .coder => coder_node
  | .tester => tester_node
  | .critic => critic_node

/-- Run the conditional-edge router attached to a node. -/
def routeFrom : Node → AgentState → Option String × AgentState
  | .planner => _route_after_planning
  | .coder => _route_after_coding
  | .tester => _route_after_testing
  | .critic => _route_after_review

/-- The conditional-edge mapping dicts of `_build_graph`: translate a
decision string into the next node or `END`.  A decision string absent
from the dict cannot arise from the routers; it is mapped to the aborted
point. -/
def nextNode : Node → String → ExecPoint
  | .planner, d =>
    if d = "coding" then .run .coder
    else if d = "testing" then .run .tester
    else if d = "reviewing" then .run .critic
    else if d = "complete" then .done
    else .crashed
  | .coder, d =>
    if d = "testing" then .run .tester
    else if d = "reviewing" then .run .critic
    else if d = "complete" then .done
    else .crashed
  | .tester, d =>
    if d = "reviewing" then .run .critic
    else if d = "coding" then .run .coder
    else if d = "complete" then .done
    else .crashed
  | .critic, d =>
    if d = "coding" then .run .coder
    else if d = "complete" then .done
    else .crashed

/-- One harness step: run the pending node on the given collaborator
outcome, then run its router and follow the edge mapping.  Terminal
points are absorbing. -/
def stepWF (o : StepOutcome) : ExecPoint × AgentState → ExecPoint × AgentState
  | (.run n, s) =>
    let s1 := runNode n o s
    match routeFrom n s1 with
    | (some d, s2) => (nextNode n d, s2)
    | (none, s2) => (.crashed, s2)
  | (.done, s) => (.done, s)
  | (.crashed, s) => (.crashed, s)

/-- The entry point of a session: the planner node on the initial state. -/
def initConfig (requirements : String) : ExecPoint × AgentState :=
  (.run .planner, create_initial_state requirements)

/-- `k` harness steps driven by the stream of collaborator outcomes
(step `k` consumes outcome `ω k`). -/
def runWF (ω : Nat → StepOutcome) (p : ExecPoint × AgentState) : Nat → ExecPoint × AgentState
  | 0 => p
  | k + 1 => stepWF (ω k) (runWF ω p k)

/-- True on the two terminal execution points. -/
def halted : ExecPoint → Bool
  | .done => true
  | .crashed => true
  | .run _ => false

lemma matchInline_ne_nil {s : List Char} {body rest : List Char}
    (h : matchInline s = some (body, rest)) : body ≠ [] := by
  cases s with
  | nil => simp [matchInline] at h
  | cons c t =>
    have e : matchInline (c :: t) =
        (if c = tick then
          (splitAtTick t).bind fun pr => if pr.1 = [] then none else some pr
        else none) := rfl
    rw [e] at h
    split_ifs at h
    rw [Option.bind_eq_some] at h
    obtain ⟨pr, hpr, hif⟩ := h
    split_ifs at hif with hpre
    injection hif with h2
    subst h2
    exact hpre

lemma findInlineAux_ne_nil :
    ∀ fuel s, ∀ body ∈ findInlineAux fuel s, body ≠ [] := by
  intro fuel
  induction fuel with
  | zero => intro s body h; simp [findInlineAux] at h
  | succ n ih =>
    intro s body h
    cases s with
    | nil => simp [findInlineAux] at h
    | cons c rest =>
      rw [findInlineAux] at h
      rcases hm : matchInline (c :: rest) with _ | ⟨b, after⟩ <;> rw [hm] at h
      · exact ih rest body h
      · rcases List.mem_cons.1 h with rfl | h2
        · exact matchInline_ne_nil hm
        · exact ih after body h2

lemma langOf_ne_nil {run r : List Char} (h : langOf run = some r) : r ≠ [] := by
  unfold langOf at h
  split_ifs at h with hr
  injection h with h2
  subst h2
  exact hr

lemma matchFence_lang {s : List Char} {r body rest : List Char}
    (h : matchFence s = some (some r, body, rest)) : r ≠ [] := by
  unfold matchFence at h
  split_ifs at h
  split at h
  · split_ifs at h
    rw [Option.map_eq_some'] at h
    obtain ⟨pr, hpr, heq⟩ := h
    have h1 : langOf ((s.drop 3).takeWhile isWordChar) = some r := by
      have := congrArg Prod.fst heq
      simpa using this
    exact langOf_ne_nil h1
  · exact absurd h (by simp)

lemma findBlocksAux_lang :
    ∀ fuel s, ∀ p ∈ findBlocksAux fuel s, ∀ r, p.1 = some r → r ≠ [] := by
  intro fuel
  induction fuel with
  | zero => intro s p h; simp [findBlocksAux] at h
  | succ n ih =>
    intro s p h
    cases s with
    | nil => simp [findBlocksAux] at h
    | cons c rest =>
      rw [findBlocksAux] at h
      rcases hm : matchFence (c :: rest) with _ | ⟨⟨lang, body, after⟩⟩ <;> rw [hm] at h
      · exact ih rest p h
      · rcases List.mem_cons.1 h with rfl | h2
        · intro r hr
          cases lang with
          | none => simp at hr
          | some l =>
            obtain rfl : l = r := by simpa using hr
            exact matchFence_lang hm
        · exact ih after p h2

lemma take_len_append {α : Type} (A B : List α) (n : Nat) (h : n = A.length) :
    (A ++ B).take n = A := by
  subst h; exact List.take_left A B

/-- Claim C8: `extract_code_from_markdown` is a pure, deterministic function
of its input text: two calls on the same text yield identical lists of
entries, in the same order.  In the shallow embedding the source function
is a mathematical function of the text alone (it reads no other input), so
the two results are one and the same value. -/
theorem extract_code_deterministic (t : List Char) :
    extract_code_from_markdown t = extract_code_from_markdown t := rfl

/-- Claim C10: besides fenced regions, extraction appends one entry per
inline backtick-delimited span, with language `text` and content not
trimmed, and all inline entries come after all fenced-block entries; in
particular an input with no fenced region but at least one inline span
yields a non-empty result. -/
theorem extract_inline_spans (t : List Char) :
    extract_code_from_markdown t =
      ((findBlocks t).map fun p =>
        { language := p.1.getD "text".data, code := pyStrip p.2, btype := "block".data })
      ++ ((findInline t).map fun body =>
        { language := "text".data, code := body, btype := "inline".data }) ∧
    (findBlocks t = [] → findInline t ≠ [] → extract_code_from_markdown t ≠ []) := by
  refine ⟨rfl, ?_⟩
  intro hb hi
  simp [extract_code_from_markdown, hb, hi]

/-- Witness for C10 at a concrete input with no fenced region and one
inline span. -/
theorem extract_inline_spans_witness :
    extract_code_from_markdown "a `b` c".data ≠ [] :=
  (extract_inline_spans "a `b` c".data).2 (by decide) (by decide)

/-- Counterexample to claim C5: the input `def f(): pass` has zero fenced
regions and contains the language-indicative token `def `, yet extraction
returns the empty list rather than a single whole-text entry — the source
has no whole-text fallback heuristic. -/
theorem extract_no_fallback_counterexample :
    findBlocks "def f(): pass".data = [] ∧
    strContains "def ".data "def f(): pass".data = true ∧
    extract_code_from_markdown "def f(): pass".data = [] := by
  refine ⟨by decide, by decide, by decide⟩

/-- Claim C5 as amended: when the input contains zero fenced regions, the
result consists exactly of the inline-span entries; no whole-text
heuristic is applied, so with no inline span the result is empty no matter
which language-indicative tokens the text contains. -/
theorem extract_zero_fences (t : List Char) (hb : findBlocks t = []) :
    extract_code_from_markdown t =
      (findInline t).map fun body =>
        { language := "text".data, code := body, btype := "inline".data } := by
  simp [extract_code_from_markdown, hb]

/-- Witness for the amended C5 at a concrete fence-free input. -/
theorem extract_zero_fences_witness :
    extract_code_from_markdown "def f(): pass".data =
      (findInline "def f(): pass".data).map fun body =>
        { language := "text".data, code := body, btype := "inline".data } :=
  extract_zero_fences "def f(): pass".data (by decide)

/-- Counterexample to claim C6: a fenced region whose trimmed content is
empty is not discarded — it produces an entry whose value is the empty
string. -/
theorem extract_keeps_empty_region_counterexample :
    extract_code_from_markdown "```\n```".data =
      [{ language := "text".data, code := [], btype := "block".data },
       { language := "text".data, code := ['\n'], btype := "inline".data }] := by
  decide

/-- Claim C6 as amended: inline entries always carry non-empty content and
no entry carries an empty language, but fenced regions are never
discarded: the first entries of the result are exactly one entry per
scanned region, kept even when the trimmed content is empty (so block
values can be the empty string). -/
theorem extract_entries_characterization (t : List Char) :
    (∀ b ∈ extract_code_from_markdown t, b.btype = "inline".data → b.code ≠ []) ∧
    (∀ b ∈ extract_code_from_markdown t, b.language ≠ []) ∧
    (extract_code_from_markdown t).take (findBlocks t).length =
      (findBlocks t).map fun p =>
        { language := p.1.getD "text".data, code := pyStrip p.2, btype := "block".data } := by
  have hbi : ("block".data : List Char) ≠ "inline".data := by decide
  have hte : ("text".data : List Char) ≠ [] := by decide
  refine ⟨?_, ?_, ?_⟩
  · intro b hb hbt
    rcases List.mem_append.1 hb with h | h
    · obtain ⟨p, hp, rfl⟩ := List.mem_map.1 h
      exact absurd hbt hbi
    · obtain ⟨body, hbody, rfl⟩ := List.mem_map.1 h
      exact findInlineAux_ne_nil _ _ body hbody
  · intro b hb
    rcases List.mem_append.1 hb with h | h
    · obtain ⟨p, hp, rfl⟩ := List.mem_map.1 h
      cases hl : p.1 with
      | none => simp [hl]
      | some r =>
        simpa [hl] using findBlocksAux_lang _ _ p hp r hl
    · obtain ⟨body, hbody, rfl⟩ := List.mem_map.1 h
      exact hte
  · exact take_len_append _ _ _ (List.length_map _ _).symm

/-- Witness for the amended C6: at a concrete input, applying the inline
conjunct to the inline entry of the result. -/
theorem extract_entries_characterization_witness :
    (['y'] : List Char) ≠ [] :=
  (extract_entries_characterization "x `y`".data).1
    { language := "text".data, code := ['y'], btype := "inline".data }
    (by decide) (by decide)

/-- A collaborator outcome whose generation succeeds with the text `x` and
whose save list is empty (every save call fails). -/
def oGenX : StepOutcome := ⟨some "x", "", [], ⟨true, ""⟩, ⟨true, some 0, "", ""⟩⟩

/-- Counterexample to claim C4: a coder run on the initial state whose
generation returns `x` and whose save calls all fail creates zero files,
yet the router sends the workflow to testing, not to the terminal — the
decision reads the `code` field, never `files_created`. -/
theorem route_after_coding_ignores_files_counterexample :
    (coder_node oGenX (create_initial_state "r")).files_created = [] ∧
    (_route_after_coding (coder_node oGenX (create_initial_state "r"))).1 = some "testing" := by
  exact ⟨rfl, rfl⟩

lemma coder_node_code (o : StepOutcome) (s : AgentState) :
    (coder_node o s).code =
      some (match o.llm with | some text => text | none => mock_code) := by
  cases ho : o.llm <;> simp [coder_node, ho, add_message]

/-- Claim C4 as amended: after the coder node returns, the router yields the
terminal decision exactly when the `code` field is falsy; it never
consults `files_created` or any retry counter, so whenever `code` is
truthy (in particular after every failed-generation coder run, whose
fallback code is non-empty) the decision is testing even when zero files
were created. -/
theorem route_after_coding_checks_code (o : StepOutcome) (s : AgentState) :
    _route_after_coding s = (some (if truthy s.code then "testing" else "complete"), s) ∧
    ((_route_after_coding (coder_node o s)).1 = some "testing" ↔
      truthy (coder_node o s).code = true) ∧
    (o.llm = none → (_route_after_coding (coder_node o s)).1 = some "testing") := by
  refine ⟨?_, ?_, ?_⟩
  · cases hc : truthy s.code <;> simp [_route_after_coding, hc]
  · cases hc : truthy (coder_node o s).code <;> simp [_route_after_coding, hc]
  · intro ho
    have hc : truthy (coder_node o s).code = true := by
      rw [coder_node_code, ho]
      decide
    simp [_route_after_coding, hc]

/-- Witness for the amended C4: a failed-generation coder run on the
initial state routes to testing. -/
theorem route_after_coding_checks_code_witness :
    (_route_after_coding
      (coder_node ⟨none, "boom", [], ⟨true, ""⟩, ⟨true, some 0, "", ""⟩⟩
        (create_initial_state "r"))).1 = some "testing" :=
  (route_after_coding_checks_code
    ⟨none, "boom", [], ⟨true, ""⟩, ⟨true, some 0, "", ""⟩⟩
    (create_initial_state "r")).2.2 rfl

lemma route_after_testing_none {s : AgentState} (hc : s.test_coverage = none) :
    _route_after_testing s = (none, s) := by
  unfold _route_after_testing
  rw [hc]

lemma route_after_testing_some {s : AgentState} {c : ℚ} (hc : s.test_coverage = some c) :
    _route_after_testing s =
      (if 80 < c then (some "reviewing", { s with iteration := 0 })
       else if 5 < s.iteration + 1 then
         (some "complete", { s with iteration := s.iteration + 1 })
       else (some "coding", { s with iteration := s.iteration + 1 })) := by
  unfold _route_after_testing
  rw [hc]

lemma route_after_review_none {s : AgentState} (hr : s.review_score = none) :
    _route_after_review s = (none, s) := by
  unfold _route_after_review
  rw [hr]

lemma route_after_review_some {s : AgentState} {r : ℚ} (hr : s.review_score = some r) :
    _route_after_review s =
      (if 8 < r then (some "complete", s)
       else if 7 < s.iteration + 1 then
         (some "complete", { s with iteration := s.iteration + 1 })
       else (some "coding", { s with iteration := s.iteration + 1 })) := by
  unfold _route_after_review
  rw [hr]

/-- The initial state with a failed test run recorded. -/
def sFailedCov : AgentState := { create_initial_state "r" with test_coverage := some 0 }

/-- Counterexample to claim C3: calling `_route_after_testing` on a state
with failing coverage changes the state the caller observes (the
iteration counter is advanced inside the decision call). -/
theorem router_mutates_state_counterexample :
    (_route_after_testing sFailedCov).2 ≠ sFailedCov := by decide

/-- Claim C3 as amended: the planning and coding routers are side-effect
free, but the testing and review routers mutate the inspected state:
the only field they change is the iteration counter (the error-message
append at the caps is computed on a copy and discarded, so messages and
all other fields are unchanged). -/
theorem routers_touch_only_iteration (s : AgentState) :
    (_route_after_planning s).2 = s ∧
    (_route_after_coding s).2 = s ∧
    { (_route_after_testing s).2 with iteration := s.iteration } = s ∧
    { (_route_after_review s).2 with iteration := s.iteration } = s := by
  refine ⟨?_, ?_, ?_, ?_⟩
  · unfold _route_after_planning; split_ifs <;> rfl
  · unfold _route_after_coding; split_ifs <;> rfl
  · rcases hc : s.test_coverage with _ | c
    · rw [route_after_testing_none hc]
    · rw [route_after_testing_some hc]
      split_ifs <;> rfl
  · rcases hr : s.review_score with _ | r
    · rw [route_after_review_none hr]
    · rw [route_after_review_some hr]
      split_ifs <;> rfl

/-- A state at the coder-tester cap: failing coverage, counter at 5. -/
def sAtTestCap : AgentState :=
  { create_initial_state "r" with test_coverage := some 0, iteration := 5 }

/-- A state at the reviewer-coder cap: low review score, counter at 7. -/
def sAtReviewCap : AgentState :=
  { create_initial_state "r" with review_score := some 5, iteration := 7 }

/-- Counterexample to claim C2: at both caps the router returns the terminal
decision, but no error message is recorded in the state the caller
observes — messages and errors stay empty, because the source discards the
result of the pure `add_message` call. -/
theorem route_cap_discards_error_counterexample :
    (_route_after_testing sAtTestCap).1 = some "complete" ∧
    (_route_after_testing sAtTestCap).2.messages = [] ∧
    (_route_after_testing sAtTestCap).2.errors = [] ∧
    (_route_after_review sAtReviewCap).1 = some "complete" ∧
    (_route_after_review sAtReviewCap).2.messages = [] ∧
    (_route_after_review sAtReviewCap).2.errors = [] := by
  exact ⟨rfl, rfl, rfl, rfl, rfl, rfl⟩

/-- Claim C2 as amended: when coverage does not exceed the threshold and the
incremented counter exceeds the cap 5, the router returns the terminal
decision with the counter advanced, but the error-message append is
discarded, so the caller-observed state carries no new message and no new
error; the same holds for the review edge with its larger cap 7. -/
theorem route_caps_force_complete (s t : AgentState) (c r : ℚ)
    (hc : s.test_coverage = some c) (hcle : c ≤ 80) (hit : 5 < s.iteration + 1)
    (hr : t.review_score = some r) (hrle : r ≤ 8) (hit2 : 7 < t.iteration + 1) :
    _route_after_testing s = (some "complete", { s with iteration := s.iteration + 1 }) ∧
    (_route_after_testing s).2.messages = s.messages ∧
    (_route_after_testing s).2.errors = s.errors ∧
    _route_after_review t = (some "complete", { t with iteration := t.iteration + 1 }) ∧
    (_route_after_review t).2.messages = t.messages ∧
    (_route_after_review t).2.errors = t.errors := by
  have h1 : _route_after_testing s = (some "complete", { s with iteration := s.iteration + 1 }) := by
    rw [route_after_testing_some hc, if_neg (not_lt.2 hcle), if_pos hit]
  have h2 : _route_after_review t = (some "complete", { t with iteration := t.iteration + 1 }) := by
    rw [route_after_review_some hr, if_neg (not_lt.2 hrle), if_pos hit2]
  exact ⟨h1, by rw [h1], by rw [h1], h2, by rw [h2], by rw [h2]⟩

/-- Witness for the amended C2 at the two concrete cap states. -/
theorem route_caps_force_complete_witness :
    _route_after_testing sAtTestCap =
      (some "complete", { sAtTestCap with iteration := sAtTestCap.iteration + 1 }) ∧
    (_route_after_testing sAtTestCap).2.messages = sAtTestCap.messages ∧
    (_route_after_testing sAtTestCap).2.errors = sAtTestCap.errors ∧
    _route_after_review sAtReviewCap =
      (some "complete", { sAtReviewCap with iteration := sAtReviewCap.iteration + 1 }) ∧
    (_route_after_review sAtReviewCap).2.messages = sAtReviewCap.messages ∧
    (_route_after_review sAtReviewCap).2.errors = sAtReviewCap.errors :=
  route_caps_force_complete sAtTestCap sAtReviewCap 0 5
    rfl (by norm_num) (by decide) rfl (by norm_num) (by decide)

lemma append_two_last {α : Type} (l : List α) (a b : α) : ∃ pre, l ++ [a, b] = pre ++ [b] :=
  ⟨l ++ [a], by simp⟩

lemma tester_after_install_spec (o : StepOutcome) (s : AgentState) :
    ((o.testRun.success && o.testRun.return_code == some 0) = true →
      (tester_after_install o s).test_coverage = some 100 ∧
      (tester_after_install o s).errors = s.errors) ∧
    ((o.testRun.success && o.testRun.return_code == some 0) = false →
      (tester_after_install o s).test_coverage = some 0 ∧
      (tester_after_install o s).errors = s.errors ∧
      ∃ pre, (tester_after_install o s).messages =
        pre ++ [⟨"tester",
          "Tests failed: " ++ pyStripS (o.testRun.stderr ++ "\n" ++ o.testRun.stdout),
          "warning"⟩]) := by
  constructor
  · intro hrun
    rcases hc : truthy s.code with _ | _
    · simp [tester_after_install, hc, hrun, add_message]
    · rcases ho : o.llm with _ | text <;>
        simp [tester_after_install, hc, ho, hrun, add_message]
  · intro hrun
    rcases hc : truthy s.code with _ | _
    · refine ⟨?_, ?_, ?_⟩
      · simp [tester_after_install, hc, hrun, add_message]
      · simp [tester_after_install, hc, hrun, add_message]
      · have hm : (tester_after_install o s).messages =
            s.messages ++ [⟨"tester", "Tests generated with mock agent", "info"⟩,
              ⟨"tester",
                "Tests failed: " ++ pyStripS (o.testRun.stderr ++ "\n" ++ o.testRun.stdout),
                "warning"⟩] := by
          simp [tester_after_install, hc, hrun, add_message]
        rw [hm]
        exact append_two_last _ _ _
    · rcases ho : o.llm with _ | text
      · refine ⟨?_, ?_, ?_⟩
        · simp [tester_after_install, hc, ho, hrun, add_message]
        · simp [tester_after_install, hc, ho, hrun, add_message]
        · have hm : (tester_after_install o s).messages =
              s.messages ++ [⟨"tester", "Tests generated with fallback", "warning"⟩,
                ⟨"tester",
                  "Tests failed: " ++ pyStripS (o.testRun.stderr ++ "\n" ++ o.testRun.stdout),
                  "warning"⟩] := by
            simp [tester_after_install, hc, ho, hrun, add_message]
          rw [hm]
          exact append_two_last _ _ _
      · refine ⟨?_, ?_, ?_⟩
        · simp [tester_after_install, hc, ho, hrun, add_message]
        · simp [tester_after_install, hc, ho, hrun, add_message]
        · have hm : (tester_after_install o s).messages =
              s.messages ++ [⟨"tester", "Tests generated using LLM", "success"⟩,
                ⟨"tester",
                  "Tests failed: " ++ pyStripS (o.testRun.stderr ++ "\n" ++ o.testRun.stdout),
                  "warning"⟩] := by
            simp [tester_after_install, hc, ho, hrun, add_message]
          rw [hm]
          exact append_two_last _ _ _

/-- A tester outcome whose test run fails with diagnostics on both
standard error and standard output. -/
def oFailRun : StepOutcome := ⟨some "t", "", [], ⟨true, ""⟩, ⟨false, some 1, "O", "E"⟩⟩

/-- The initial state after some code was generated. -/
def sWithCode : AgentState := { create_initial_state "r" with code := some "print(1)" }

/-- Counterexample to claim C7: on a failing test run the tester node sets
coverage to 0 but appends nothing to the `errors` sequence — the combined
standard-error/standard-output text only lands in a `warning`-kind message. -/
theorem tester_failure_not_in_errors_counterexample :
    (tester_node oFailRun sWithCode).test_coverage = some 0 ∧
    (tester_node oFailRun sWithCode).errors = [] ∧
    (tester_node oFailRun sWithCode).messages.getLast? =
      some ⟨"tester", "Tests failed: E\nO", "warning"⟩ := by
  exact ⟨rfl, rfl, rfl⟩

/-- Claim C7 as amended: when no dependency install intervenes, the tester
node sets `testCoverage` to exactly 100 when the run reports success with
return code 0 and to exactly 0 otherwise; on any failing run the combined
standard-error and standard-output text is appended as the final message
of kind `warning` (prefixed `Tests failed: ` and stripped) while the
`errors` sequence is left unchanged. -/
theorem tester_coverage_and_failure_message (o : StepOutcome) (s : AgentState)
    (hreq : "requirements.txt" ∉ s.files_created) :
    ((o.testRun.success && o.testRun.return_code == some 0) = true →
      (tester_node o s).test_coverage = some 100 ∧
      (tester_node o s).errors = s.errors) ∧
    ((o.testRun.success && o.testRun.return_code == some 0) = false →
      (tester_node o s).test_coverage = some 0 ∧
      (tester_node o s).errors = s.errors ∧
      ∃ pre, (tester_node o s).messages =
        pre ++ [⟨"tester",
          "Tests failed: " ++ pyStripS (o.testRun.stderr ++ "\n" ++ o.testRun.stdout),
          "warning"⟩]) := by
  have hreq2 : "requirements.txt" ∉
      (add_message { s with current_agent := some "tester", phase := "testing" }
        "tester" "Starting testing phase..." "info").files_created := hreq
  have hnode : tester_node o s =
      tester_after_install o
        (add_message { s with current_agent := some "tester", phase := "testing" }
          "tester" "Starting testing phase..." "info") := by
    unfold tester_node
    rw [if_neg hreq2]
  rw [hnode]
  constructor
  · intro hrun
    obtain ⟨ha, hb⟩ := (tester_after_install_spec o _).1 hrun
    exact ⟨ha, hb⟩
  · intro hrun
    obtain ⟨ha, hb, pre, hp⟩ := (tester_after_install_spec o _).2 hrun
    exact ⟨ha, hb, pre, hp⟩

/-- Witness for the amended C7: a successful run on a concrete state yields
coverage 100 and unchanged errors. -/
theorem tester_coverage_and_failure_message_witness :
    (tester_node oGenX sWithCode).test_coverage = some 100 ∧
    (tester_node oGenX sWithCode).errors = sWithCode.errors :=
  (tester_coverage_and_failure_message oGenX sWithCode (by decide)).1 rfl

lemma planner_node_proj (o : StepOutcome) (s : AgentState) :
    (planner_node o s).iteration = s.iteration ∧
    (planner_node o s).test_coverage = s.test_coverage ∧
    (planner_node o s).review_score = s.review_score ∧
    (planner_node o s).files_created = s.files_created ∧
    (planner_node o s).code = s.code := by
  cases ho : o.llm <;> simp [planner_node, ho, add_message]

lemma planner_node_plan (o : StepOutcome) (s : AgentState) (text : String)
    (ho : o.llm = some text) : (planner_node o s).plan = some text := by
  simp [planner_node, ho, add_message]

lemma coder_files_loop_proj {β : Type} (f : AgentState → β)
    (hf : ∀ st a t k, f (add_message st a t k) = f st) (o : StepOutcome) :
    ∀ (blocks : List CodeBlock) (i : Nat) (s : AgentState) (acc : List String),
      f (coder_files_loop o blocks i s acc).1 = f s := by
  intro blocks
  induction blocks with
  | nil => intro i s acc; rfl
  | cons b bs ih =>
    intro i s acc
    simp only [coder_files_loop]
    split_ifs
    · rw [ih]; exact hf _ _ _ _
    · exact ih _ _ _

lemma coder_node_proj (o : StepOutcome) (s : AgentState) :
    (coder_node o s).iteration = s.iteration ∧
    (coder_node o s).test_coverage = s.test_coverage ∧
    (coder_node o s).review_score = s.review_score ∧
    (coder_node o s).errors = s.errors := by
  refine ⟨?_, ?_, ?_, ?_⟩ <;>
    cases ho : o.llm <;>
      simp only [coder_node, ho] <;>
      first
      | exact coder_files_loop_proj (fun st => st.iteration) (fun _ _ _ _ => rfl) o _ _ _ _
      | exact coder_files_loop_proj (fun st => st.test_coverage) (fun _ _ _ _ => rfl) o _ _ _ _
      | exact coder_files_loop_proj (fun st => st.review_score) (fun _ _ _ _ => rfl) o _ _ _ _
      | exact coder_files_loop_proj (fun st => st.errors) (fun _ _ _ _ => rfl) o _ _ _ _

lemma tester_after_install_proj (o : StepOutcome) (s : AgentState) :
    (tester_after_install o s).iteration = s.iteration ∧
    (tester_after_install o s).code = s.code ∧
    (tester_after_install o s).files_created = s.files_created ∧
    (tester_after_install o s).review_score = s.review_score := by
  refine ⟨?_, ?_, ?_, ?_⟩
  all_goals
    rcases hc : truthy s.code with _ | _
    · cases hrun : (o.testRun.success && o.testRun.return_code == some 0) <;>
        simp [tester_after_install, hc, hrun, add_message]
    · rcases ho : o.llm with _ | t <;>
        cases hrun : (o.testRun.success && o.testRun.return_code == some 0) <;>
          simp [tester_after_install, hc, ho, hrun, add_message]

lemma tester_node_proj (o : StepOutcome) (s : AgentState) :
    (tester_node o s).iteration = s.iteration ∧
    (tester_node o s).code = s.code ∧
    (tester_node o s).files_created = s.files_created ∧
    (tester_node o s).review_score = s.review_score := by
  by_cases hmem : "requirements.txt" ∈ s.files_created
  · have hmem2 : "requirements.txt" ∈
        (add_message { s with current_agent := some "tester", phase := "testing" }
          "tester" "Starting testing phase..." "info").files_created := hmem
    unfold tester_node
    rw [if_pos hmem2]
    rcases hins : o.install.success with _ | _
    · rw [if_neg Bool.false_ne_true]
      exact ⟨rfl, rfl, rfl, rfl⟩
    · rw [if_pos rfl]
      exact tester_after_install_proj o _
  · have hmem2 : "requirements.txt" ∉
        (add_message { s with current_agent := some "tester", phase := "testing" }
          "tester" "Starting testing phase..." "info").files_created := hmem
    unfold tester_node
    rw [if_neg hmem2]
    exact tester_after_install_proj o _

lemma tester_node_coverage_fail (o : StepOutcome) (s : AgentState)
    (hrun : (o.testRun.success && o.testRun.return_code == some 0) = false) :
    (tester_node o s).test_coverage = some 0 ∨
    (tester_node o s).test_coverage = s.test_coverage := by
  by_cases hmem : "requirements.txt" ∈ s.files_created
  · have hmem2 : "requirements.txt" ∈
        (add_message { s with current_agent := some "tester", phase := "testing" }
          "tester" "Starting testing phase..." "info").files_created := hmem
    unfold tester_node
    rw [if_pos hmem2]
    rcases hins : o.install.success with _ | _
    · rw [if_neg Bool.false_ne_true]
      exact Or.inr rfl
    · rw [if_pos rfl]
      exact Or.inl ((tester_after_install_spec o _).2 hrun).1
  · have hmem2 : "requirements.txt" ∉
        (add_message { s with current_agent := some "tester", phase := "testing" }
          "tester" "Starting testing phase..." "info").files_created := hmem
    unfold tester_node
    rw [if_neg hmem2]
    exact Or.inl ((tester_after_install_spec o _).2 hrun).1

lemma critic_node_proj (o : StepOutcome) (s : AgentState) :
    (critic_node o s).iteration = s.iteration ∧
    (critic_node o s).test_coverage = s.test_coverage ∧
    (critic_node o s).code = s.code ∧
    (critic_node o s).files_created = s.files_created := by
  refine ⟨?_, ?_, ?_, ?_⟩
  all_goals
    rcases hc : truthy s.code with _ | _
    · simp [critic_node, add_message, hc]
    · rcases ho : o.llm with _ | t <;> simp [critic_node, add_message, hc, ho]

lemma critic_node_score_some (o : StepOutcome) (s : AgentState) :
    ∃ r, (critic_node o s).review_score = some r := by
  rcases hc : truthy s.code with _ | _
  · exact ⟨17 / 2, by simp [critic_node, add_message, hc]⟩
  · rcases ho : o.llm with _ | t
    · exact ⟨17 / 2, by simp [critic_node, add_message, hc, ho]⟩
    · exact ⟨extract_review_score t, by simp [critic_node, add_message, hc, ho]⟩

lemma critic_node_score_of (o : StepOutcome) (s : AgentState) (text : String)
    (hc : truthy s.code = true) (ho : o.llm = some text) :
    (critic_node o s).review_score = some (extract_review_score text) := by
  simp [critic_node, add_message, hc, ho]

lemma runNode_iteration (n : Node) (o : StepOutcome) (s : AgentState) :
    (runNode n o s).iteration = s.iteration := by
  cases n
  · exact (planner_node_proj o s).1
  · exact (coder_node_proj o s).1
  · exact (tester_node_proj o s).1
  · exact (critic_node_proj o s).1

lemma route_planning_state (s : AgentState) :
    (_route_after_planning s).2.test_coverage = s.test_coverage ∧
    ((_route_after_planning s).2.iteration = 0 ∨
      (_route_after_planning s).2.iteration = s.iteration ∨
      (_route_after_planning s).2.iteration = s.iteration + 1) := by
  unfold _route_after_planning
  split_ifs <;> exact ⟨rfl, Or.inr (Or.inl rfl)⟩

lemma route_coding_state (s : AgentState) :
    (_route_after_coding s).2.test_coverage = s.test_coverage ∧
    ((_route_after_coding s).2.iteration = 0 ∨
      (_route_after_coding s).2.iteration = s.iteration ∨
      (_route_after_coding s).2.iteration = s.iteration + 1) := by
  unfold _route_after_coding
  split_ifs <;> exact ⟨rfl, Or.inr (Or.inl rfl)⟩

lemma route_testing_state (s : AgentState) :
    (_route_after_testing s).2.test_coverage = s.test_coverage ∧
    ((_route_after_testing s).2.iteration = 0 ∨
      (_route_after_testing s).2.iteration = s.iteration ∨
      (_route_after_testing s).2.iteration = s.iteration + 1) := by
  rcases hc : s.test_coverage with _ | c
  · rw [route_after_testing_none hc]
    exact ⟨hc, Or.inr (Or.inl rfl)⟩
  · rw [route_after_testing_some hc]
    split_ifs
    · exact ⟨hc, Or.inl rfl⟩
    · exact ⟨hc, Or.inr (Or.inr rfl)⟩
    · exact ⟨hc, Or.inr (Or.inr rfl)⟩

lemma route_review_state (s : AgentState) :
    (_route_after_review s).2.test_coverage = s.test_coverage ∧
    ((_route_after_review s).2.iteration = 0 ∨
      (_route_after_review s).2.iteration = s.iteration ∨
      (_route_after_review s).2.iteration = s.iteration + 1) := by
  rcases hr : s.review_score with _ | r
  · rw [route_after_review_none hr]
    exact ⟨rfl, Or.inr (Or.inl rfl)⟩
  · rw [route_after_review_some hr]
    split_ifs
    · exact ⟨rfl, Or.inr (Or.inl rfl)⟩
    · exact ⟨rfl, Or.inr (Or.inr rfl)⟩
    · exact ⟨rfl, Or.inr (Or.inr rfl)⟩

lemma routeFrom_state (n : Node) (s : AgentState) :
    (routeFrom n s).2.test_coverage = s.test_coverage ∧
    ((routeFrom n s).2.iteration = 0 ∨ (routeFrom n s).2.iteration = s.iteration ∨
      (routeFrom n s).2.iteration = s.iteration + 1) := by
  cases n
  · exact route_planning_state s
  · exact route_coding_state s
  · exact route_testing_state s
  · exact route_review_state s

lemma stepWF_snd (o : StepOutcome) (n : Node) (s : AgentState) :
    (stepWF o (.run n, s)).2 = (routeFrom n (runNode n o s)).2 := by
  rcases h : routeFrom n (runNode n o s) with ⟨od, s2⟩
  cases od <;> simp [stepWF, h]

lemma step_iteration_nonneg (o : StepOutcome) (p : ExecPoint × AgentState)
    (h : 0 ≤ p.2.iteration) : 0 ≤ (stepWF o p).2.iteration := by
  rcases p with ⟨e, s⟩
  have h0 : 0 ≤ s.iteration := h
  cases e with
  | run n =>
    rw [stepWF_snd]
    have h1 := runNode_iteration n o s
    rcases (routeFrom_state n (runNode n o s)).2 with h2 | h2 | h2 <;> rw [h2] <;> omega
  | done => exact h0
  | crashed => exact h0

/-- Counterexample to claim C9: after three harness steps under a stream of
successful outcomes (generation text `x`, test run passing), the session
stands at the critic node with the iteration counter equal to 0 — a
reachable state in which the counter is below 1, because the testing
router resets it to 0 rather than to a value at least 1. -/
theorem iteration_reset_below_one_counterexample :
    (runWF (fun _ => oGenX) (initConfig "r") 3).1 = ExecPoint.run Node.critic ∧
    (runWF (fun _ => oGenX) (initConfig "r") 3).2.iteration = 0 := by
  exact ⟨rfl, rfl⟩

/-- Claim C9 as amended: the iteration counter starts at 1 and stays at
least 0 (not 1) in every state reachable through the node functions and
router steps; the node functions never change it, and each router call
either leaves it unchanged, increments it by one, or — only on the
successful testing phase advance — resets it to 0. -/
theorem iteration_invariant (req : String) (ω : Nat → StepOutcome) (k : Nat) :
    (create_initial_state req).iteration = 1 ∧
    0 ≤ (runWF ω (initConfig req) k).2.iteration ∧
    (∀ n o s, (runNode n o s).iteration = s.iteration) ∧
    (∀ s c, s.test_coverage = some c → 80 < c →
      (_route_after_testing s).2.iteration = 0) ∧
    (∀ s c, s.test_coverage = some c → ¬80 < c →
      (_route_after_testing s).2.iteration = s.iteration + 1) ∧
    (∀ s, (_route_after_review s).2.iteration = s.iteration ∨
      (_route_after_review s).2.iteration = s.iteration + 1) := by
  refine ⟨rfl, ?_, runNode_iteration, ?_, ?_, ?_⟩
  · induction k with
    | zero => norm_num [runWF, initConfig, create_initial_state]
    | succ k ih => exact step_iteration_nonneg (ω k) _ ih
  · intro s c hc h80
    rw [route_after_testing_some hc, if_pos h80]
  · intro s c hc h80
    rw [route_after_testing_some hc, if_neg h80]
    split_ifs <;> rfl
  · intro s
    rcases hr : s.review_score with _ | r
    · rw [route_after_review_none hr]
      exact Or.inl rfl
    · rw [route_after_review_some hr]
      split_ifs
      · exact Or.inl rfl
      · exact Or.inr rfl
      · exact Or.inr rfl

/-- The initial state with a passing test run recorded. -/
def sPassedCov : AgentState := { create_initial_state "r" with test_coverage := some 100 }

/-- Witness for the amended C9: nonnegativity after three steps of the
successful-outcome stream, and the reset to 0 on a concrete state whose
coverage exceeds the threshold. -/
theorem iteration_invariant_witness :
    0 ≤ (runWF (fun _ => oGenX) (initConfig "r") 3).2.iteration ∧
    (_route_after_testing sPassedCov).2.iteration = 0 :=
  ⟨(iteration_invariant "r" (fun _ => oGenX) 3).2.1,
    (iteration_invariant "r" (fun _ => oGenX) 0).2.2.2.1 sPassedCov 100 rfl (by norm_num)⟩

lemma stepWF_run_eq (o : StepOutcome) (n : Node) (s : AgentState) (d : String)
    (s2 : AgentState) (h : routeFrom n (runNode n o s) = (some d, s2)) :
    stepWF o (.run n, s) = (nextNode n d, s2) := by
  have e : stepWF o (.run n, s) =
      (match routeFrom n (runNode n o s) with
       | (some d, s2) => (nextNode n d, s2)
       | (none, s2) => (.crashed, s2)) := rfl
  rw [e, h]

lemma stepWF_crash_eq (o : StepOutcome) (n : Node) (s : AgentState)
    (s2 : AgentState) (h : routeFrom n (runNode n o s) = (none, s2)) :
    stepWF o (.run n, s) = (.crashed, s2) := by
  have e : stepWF o (.run n, s) =
      (match routeFrom n (runNode n o s) with
       | (some d, s2) => (nextNode n d, s2)
       | (none, s2) => (.crashed, s2)) := rfl
  rw [e, h]

lemma tester_node_eq_no_install (o : StepOutcome) (s : AgentState)
    (hmem : "requirements.txt" ∉ s.files_created) :
    tester_node o s =
      tester_after_install o
        (add_message { s with current_agent := some "tester", phase := "testing" }
          "tester" "Starting testing phase..." "info") := by
  have hmem2 : "requirements.txt" ∉
      (add_message { s with current_agent := some "tester", phase := "testing" }
        "tester" "Starting testing phase..." "info").files_created := hmem
  unfold tester_node
  rw [if_neg hmem2]

lemma coder_node_files_oGenX (s : AgentState) :
    (coder_node oGenX s).files_created = s.files_created.dedup := by
  show (s.files_created ++ []).dedup = s.files_created.dedup
  rw [List.append_nil]

/-- The routing-relevant shape of the states visited forever by the
pass-then-reject outcome stream: the created-file set stays empty, and the
execution cycles through coder, tester and critic with truthy code and a
counter that is freshly reset whenever the critic is entered. -/
def loopInv (p : ExecPoint × AgentState) : Prop :=
  p.2.files_created = [] ∧
  (p.1 = .run .planner ∨ p.1 = .run .coder ∨
    (p.1 = .run .tester ∧ truthy p.2.code = true) ∨
    (p.1 = .run .critic ∧ truthy p.2.code = true ∧ p.2.iteration = 0))

lemma loopInv_step (p : ExecPoint × AgentState) (h : loopInv p) :
    loopInv (stepWF oGenX p) := by
  obtain ⟨hf, hcase⟩ := h
  rcases p with ⟨e, s⟩
  have hf' : s.files_created = [] := hf
  rcases hcase with he | he | ⟨he, hc⟩ | ⟨he, hc, hit⟩
  · subst he
    have hplan : (planner_node oGenX s).plan = some "x" :=
      planner_node_plan oGenX s "x" rfl
    have hroute : routeFrom .planner (runNode .planner oGenX s) =
        (some "coding", planner_node oGenX s) := by
      show _route_after_planning (planner_node oGenX s) = _
      unfold _route_after_planning
      rw [hplan]
      rfl
    rw [stepWF_run_eq oGenX .planner s "coding" _ hroute]
    refine ⟨?_, Or.inr (Or.inl rfl)⟩
    show (planner_node oGenX s).files_created = []
    rw [(planner_node_proj oGenX s).2.2.2.1]
    exact hf'
  · subst he
    have hcode : (coder_node oGenX s).code = some "x" := by
      rw [coder_node_code]
      rfl
    have hroute : routeFrom .coder (runNode .coder oGenX s) =
        (some "testing", coder_node oGenX s) := by
      show _route_after_coding (coder_node oGenX s) = _
      unfold _route_after_coding
      rw [hcode]
      rfl
    rw [stepWF_run_eq oGenX .coder s "testing" _ hroute]
    refine ⟨?_, Or.inr (Or.inr (Or.inl ⟨rfl, ?_⟩))⟩
    · show (coder_node oGenX s).files_created = []
      rw [coder_node_files_oGenX, hf']
      rfl
    · show truthy (coder_node oGenX s).code = true
      rw [hcode]
      rfl
  · subst he
    have hmem : "requirements.txt" ∉ s.files_created := by
      rw [hf']
      exact List.not_mem_nil _
    have h100 : (tester_node oGenX s).test_coverage = some 100 := by
      rw [tester_node_eq_no_install oGenX s hmem]
      exact ((tester_after_install_spec oGenX _).1 rfl).1
    have hroute : routeFrom .tester (runNode .tester oGenX s) =
        (some "reviewing", { tester_node oGenX s with iteration := 0 }) := by
      show _route_after_testing (tester_node oGenX s) = _
      rw [route_after_testing_some h100, if_pos (by norm_num : (80 : ℚ) < 100)]
    rw [stepWF_run_eq oGenX .tester s "reviewing" _ hroute]
    refine ⟨?_, Or.inr (Or.inr (Or.inr ⟨rfl, ?_, rfl⟩))⟩
    · show (tester_node oGenX s).files_created = []
      rw [(tester_node_proj oGenX s).2.2.1]
      exact hf'
    · show truthy (tester_node oGenX s).code = true
      rw [(tester_node_proj oGenX s).2.1]
      exact hc
  · subst he
    have hscore : (critic_node oGenX s).review_score = some 5 := by
      rw [critic_node_score_of oGenX s "x" hc rfl]
      rfl
    have hit1 : (critic_node oGenX s).iteration = 0 := by
      rw [(critic_node_proj oGenX s).1, hit]
    have hroute : routeFrom .critic (runNode .critic oGenX s) =
        (some "coding",
          { critic_node oGenX s with iteration := (critic_node oGenX s).iteration + 1 }) := by
      show _route_after_review (critic_node oGenX s) = _
      rw [route_after_review_some hscore, if_neg (by norm_num : ¬(8 : ℚ) < 5), hit1]
      rw [if_neg (by norm_num : ¬(7 : ℤ) < 0 + 1)]
    rw [stepWF_run_eq oGenX .critic s "coding" _ hroute]
    refine ⟨?_, Or.inr (Or.inl rfl)⟩
    show (critic_node oGenX s).files_created = []
    rw [(critic_node_proj oGenX s).2.2.2]
    exact hf'

/-- Counterexample to claim C1: under the outcome stream in which every
generation succeeds with the text `x` and every test run passes (while the
review text never contains the approval marker), the workflow never
reaches a terminal outcome: the coder-tester-critic cycle runs forever,
because the shared iteration counter is reset to 0 on every test success
and so never exceeds either cap. -/
theorem router_loop_counterexample :
    ¬∃ k, halted (runWF (fun _ => oGenX) (initConfig "r") k).1 = true := by
  rintro ⟨k, hk⟩
  have hInv : ∀ m, loopInv (runWF (fun _ => oGenX) (initConfig "r") m) := by
    intro m
    induction m with
    | zero => exact ⟨rfl, Or.inl rfl⟩
    | succ m ih => exact loopInv_step _ ih
  obtain ⟨-, hcase⟩ := hInv k
  rcases hcase with he | he | ⟨he, -⟩ | ⟨he, -, -⟩ <;> rw [he] at hk <;> simp [halted] at hk

/-- Priority of each node in the termination measure. -/
def nodeBase : Node → Nat
  | .planner => 2
  | .coder => 1
  | .tester => 0
  | .critic => 0

/-- Termination measure for runs in which no test ever passes: terminal
points weigh 0; a pending node weighs its priority plus three units for
every remaining increment of the shared counter before the larger cap. -/
def stepMeasure (p : ExecPoint × AgentState) : Nat :=
  match p.1 with
  | .run n => 1 + nodeBase n + 3 * (9 - min p.2.iteration.toNat 9)
  | .done => 0
  | .crashed => 0

/-- Invariant along runs in which no test ever passes: coverage is absent
or zero, and the counter is nonnegative. -/
def runInv (s : AgentState) : Prop :=
  (s.test_coverage = none ∨ s.test_coverage = some 0) ∧ 0 ≤ s.iteration

lemma measure_pos (n : Node) (s : AgentState) : 0 < stepMeasure (.run n, s) := by
  simp only [stepMeasure]
  omega

lemma measure_lt_step (n m : Node) (s s1 : AgentState)
    (hb : nodeBase m < nodeBase n) (hi : s1.iteration = s.iteration) :
    stepMeasure (.run m, s1) < stepMeasure (.run n, s) := by
  simp only [stepMeasure]
  rw [hi]
  omega

lemma measure_lt_incr (n m : Node) (s s1 : AgentState) (cap : Int)
    (hb : nodeBase m ≤ nodeBase n + 2) (hcap : cap ≤ 7)
    (hi : s1.iteration = s.iteration + 1) (hle : s.iteration + 1 ≤ cap)
    (h0 : 0 ≤ s.iteration) :
    stepMeasure (.run m, s1) < stepMeasure (.run n, s) := by
  simp only [stepMeasure]
  rw [hi]
  omega

lemma runInv_route (n : Node) (s : AgentState) (h : runInv s) :
    runInv (routeFrom n s).2 := by
  obtain ⟨hc, hi⟩ := h
  obtain ⟨h1, h2⟩ := routeFrom_state n s
  constructor
  · rw [h1]; exact hc
  · rcases h2 with h2 | h2 | h2 <;> rw [h2] <;> omega

lemma runInv_node (n : Node) (o : StepOutcome) (s : AgentState)
    (ho : (o.testRun.success && o.testRun.return_code == some 0) = false)
    (h : runInv s) : runInv (runNode n o s) := by
  obtain ⟨hc, hi⟩ := h
  constructor
  · cases n
    · show (planner_node o s).test_coverage = none ∨ (planner_node o s).test_coverage = some 0
      rw [(planner_node_proj o s).2.1]; exact hc
    · show (coder_node o s).test_coverage = none ∨ (coder_node o s).test_coverage = some 0
      rw [(coder_node_proj o s).2.1]; exact hc
    · show (tester_node o s).test_coverage = none ∨ (tester_node o s).test_coverage = some 0
      rcases tester_node_coverage_fail o s ho with h2 | h2
      · exact Or.inr h2
      · rw [h2]; exact hc
    · show (critic_node o s).test_coverage = none ∨ (critic_node o s).test_coverage = some 0
      rw [(critic_node_proj o s).2.1]; exact hc
  · rw [runNode_iteration]; exact hi

lemma runInv_step (o : StepOutcome) (p : ExecPoint × AgentState)
    (ho : (o.testRun.success && o.testRun.return_code == some 0) = false)
    (h : runInv p.2) : runInv (stepWF o p).2 := by
  rcases p with ⟨e, s⟩
  have h' : runInv s := h
  cases e with
  | done => exact h'
  | crashed => exact h'
  | run n =>
    rw [stepWF_snd]
    exact runInv_route n _ (runInv_node n o s ho h')

lemma step_measure_lt (o : StepOutcome) (n : Node) (s : AgentState)
    (ho : (o.testRun.success && o.testRun.return_code == some 0) = false)
    (h : runInv s) :
    stepMeasure (stepWF o (.run n, s)) < stepMeasure (.run n, s) := by
  obtain ⟨hcov, hi0⟩ := h
  cases n with
  | planner =>
    rcases htp : truthy (planner_node o s).plan with _ | _
    · have hroute : routeFrom .planner (runNode .planner o s) =
          (some "complete", planner_node o s) := by
        show _route_after_planning (planner_node o s) = _
        unfold _route_after_planning
        rw [htp]
        rfl
      rw [stepWF_run_eq o .planner s "complete" _ hroute]
      exact measure_pos .planner s
    · have hroute : routeFrom .planner (runNode .planner o s) =
          (some "coding", planner_node o s) := by
        show _route_after_planning (planner_node o s) = _
        unfold _route_after_planning
        rw [htp]
        rfl
      rw [stepWF_run_eq o .planner s "coding" _ hroute]
      exact measure_lt_step .planner .coder s _ (by decide) (planner_node_proj o s).1
  | coder =>
    rcases htc : truthy (coder_node o s).code with _ | _
    · have hroute : routeFrom .coder (runNode .coder o s) =
          (some "complete", coder_node o s) := by
        show _route_after_coding (coder_node o s) = _
        unfold _route_after_coding
        rw [htc]
        rfl
      rw [stepWF_run_eq o .coder s "complete" _ hroute]
      exact measure_pos .coder s
    · have hroute : routeFrom .coder (runNode .coder o s) =
          (some "testing", coder_node o s) := by
        show _route_after_coding (coder_node o s) = _
        unfold _route_after_coding
        rw [htc]
        rfl
      rw [stepWF_run_eq o .coder s "testing" _ hroute]
      exact measure_lt_step .coder .tester s _ (by decide) (coder_node_proj o s).1
  | tester =>
    have hc1 : (tester_node o s).test_coverage = none ∨
        (tester_node o s).test_coverage = some 0 := by
      rcases tester_node_coverage_fail o s ho with h2 | h2
      · exact Or.inr h2
      · rw [h2]; exact hcov
    have hpiter := (tester_node_proj o s).1
    rcases hc1 with h2 | h2
    · have hroute : routeFrom .tester (runNode .tester o s) = (none, tester_node o s) := by
        show _route_after_testing (tester_node o s) = _
        exact route_after_testing_none h2
      rw [stepWF_crash_eq o .tester s _ hroute]
      exact measure_pos .tester s
    · have hroute0 := route_after_testing_some h2
      rw [if_neg (by norm_num : ¬(80 : ℚ) < 0)] at hroute0
      by_cases hcap : 5 < (tester_node o s).iteration + 1
      · rw [if_pos hcap] at hroute0
        have hroute : routeFrom .tester (runNode .tester o s) =
            (some "complete",
              { tester_node o s with iteration := (tester_node o s).iteration + 1 }) := hroute0
        rw [stepWF_run_eq o .tester s "complete" _ hroute]
        exact measure_pos .tester s
      · rw [if_neg hcap] at hroute0
        have hroute : routeFrom .tester (runNode .tester o s) =
            (some "coding",
              { tester_node o s with iteration := (tester_node o s).iteration + 1 }) := hroute0
        rw [stepWF_run_eq o .tester s "coding" _ hroute]
        refine measure_lt_incr .tester .coder s _ 5 (by decide) (by norm_num)
          ?_ ?_ hi0
        · show (tester_node o s).iteration + 1 = s.iteration + 1
          rw [hpiter]
        · omega
  | critic =>
    obtain ⟨r, hr⟩ := critic_node_score_some o s
    have hpiter := (critic_node_proj o s).1
    have hroute0 := route_after_review_some hr
    by_cases hsc : 8 < r
    · rw [if_pos hsc] at hroute0
      have hroute : routeFrom .critic (runNode .critic o s) =
          (some "complete", critic_node o s) := hroute0
      rw [stepWF_run_eq o .critic s "complete" _ hroute]
      exact measure_pos .critic s
    · rw [if_neg hsc] at hroute0
      by_cases hcap : 7 < (critic_node o s).iteration + 1
      · rw [if_pos hcap] at hroute0
        have hroute : routeFrom .critic (runNode .critic o s) =
            (some "complete",
              { critic_node o s with iteration := (critic_node o s).iteration + 1 }) := hroute0
        rw [stepWF_run_eq o .critic s "complete" _ hroute]
        exact measure_pos .critic s
      · rw [if_neg hcap] at hroute0
        have hroute : routeFrom .critic (runNode .critic o s) =
            (some "coding",
              { critic_node o s with iteration := (critic_node o s).iteration + 1 }) := hroute0
        rw [stepWF_run_eq o .critic s "coding" _ hroute]
        refine measure_lt_incr .critic .coder s _ 7 (by decide) (by norm_num)
          ?_ ?_ hi0
        · show (critic_node o s).iteration + 1 = s.iteration + 1
          rw [hpiter]
        · omega

lemma runWF_shift (ω : Nat → StepOutcome) (p : ExecPoint × AgentState) (k : Nat) :
    runWF ω p (k + 1) = runWF (fun n => ω (n + 1)) (stepWF (ω 0) p) k := by
  induction k with
  | zero => rfl
  | succ k ih =>
    show stepWF (ω (k + 1)) (runWF ω p (k + 1)) = _
    rw [ih]
    rfl

lemma measure_halts :
    ∀ (m : Nat) (ω : Nat → StepOutcome),
      (∀ n, ((ω n).testRun.success && (ω n).testRun.return_code == some 0) = false) →
      ∀ p : ExecPoint × AgentState, runInv p.2 → stepMeasure p ≤ m →
        ∃ k, k ≤ m ∧ halted (runWF ω p k).1 = true := by
  intro m
  induction m with
  | zero =>
    intro ω hω p hInv hμ
    refine ⟨0, le_refl 0, ?_⟩
    rcases p with ⟨e, s⟩
    cases e with
    | run n => exact absurd hμ (by have := measure_pos n s; omega)
    | done => rfl
    | crashed => rfl
  | succ m ih =>
    intro ω hω p hInv hμ
    rcases he : halted p.1 with _ | _
    · have hlt : stepMeasure (stepWF (ω 0) p) < stepMeasure p := by
        rcases p with ⟨e, s⟩
        cases e with
        | run n => exact step_measure_lt (ω 0) n s (hω 0) hInv
        | done => exact absurd he (by simp [halted])
        | crashed => exact absurd he (by simp [halted])
      obtain ⟨k, hk, hh⟩ := ih (fun n => ω (n + 1)) (fun n => hω (n + 1))
        (stepWF (ω 0) p) (runInv_step (ω 0) p (hω 0) hInv) (by omega)
      refine ⟨k + 1, by omega, ?_⟩
      rw [runWF_shift]
      exact hh
    · exact ⟨0, by omega, he⟩

/-- Claim C1 as amended: for every outcome stream in which no test run ever
succeeds — in particular when every generation, save, install and test
call fails — the workflow reaches a terminal outcome within 27 harness
steps (the two caps 5 and 7 plus a constant); but termination does not
hold for arbitrary outcome streams, since a stream alternating test
success with review rejection loops forever (see the counterexample). -/
theorem workflow_halts_without_test_success (req : String) (ω : Nat → StepOutcome)
    (h : ∀ n, ((ω n).testRun.success && (ω n).testRun.return_code == some 0) = false) :
    ∃ k, k ≤ 27 ∧ halted (runWF ω (initConfig req) k).1 = true := by
  refine measure_halts 27 ω h (initConfig req) ⟨Or.inl rfl, (by norm_num : (0 : ℤ) ≤ 1)⟩ ?_
  exact (by norm_num : 1 + 2 + 3 * (9 - min (Int.toNat 1) 9) ≤ 27)

/-- An all-failure collaborator outcome: generation, saves, install and the
test run all fail. -/
def oAllFail : StepOutcome := ⟨none, "e", [], ⟨false, "ie"⟩, ⟨false, some 1, "so", "se"⟩⟩

/-- Witness for the amended C1 at the concrete all-failure stream. -/
theorem workflow_halts_without_test_success_witness :
    ∃ k, k ≤ 27 ∧ halted (runWF (fun _ => oAllFail) (initConfig "r") k).1 = true :=
  workflow_halts_without_test_success "r" (fun _ => oAllFail) (fun _ => rfl)
